import Mathlib

/-!
Shallow embedding of the repository source file cprofilev.py, a small web
viewer for Python cProfile / pstats captures.

Modelling conventions:
* Python strings are lists of characters (Str below).
* The opaque pstats.Stats collaborator is a record of output-producing
  functions (Engine); sort_stats is recorded in a sortArg field and the
  printed text of print_stats / print_callers / print_callees is a function
  of that field, appended to the object-owned stream buffer.
* The file system and the bottle request query are passed explicitly.
* Raised Python exceptions become explicit error values (PyError).
* Lines produced by Python splitlines(True) are split after a newline
  character; only the newline terminator is modelled, which is the only
  terminator pstats output uses.
-/

/-- Python strings are modelled as lists of characters. -/
abbrev Str := List Char

/-- Shorthand turning a Lean string literal into the Str model. -/
def lit (s : String) : Str := s.data

/-- A single-quote character (apostrophe), as used by the anchor templates. -/
def apos : Str := [Char.ofNat 39]

/-- Fuel-bounded worker for Python str.replace: scans left to right,
replacing non-overlapping occurrences.  The fuel starts at the length of the
scanned string, which always suffices because each step consumes at least one
character. -/
def replaceAllAux : Nat → Str → Str → Str → Str
  | 0, s, _, _ => s
  | fuel + 1, s, needle, repl =>
    match s with
    | [] => []
    | c :: rest =>
      if needle ≠ [] ∧ needle.isPrefixOf (c :: rest) then
        repl ++ replaceAllAux fuel ((c :: rest).drop needle.length) needle repl
      else
        c :: replaceAllAux fuel rest needle repl

/-- Python s.replace(needle, repl) for a nonempty needle. -/
def replaceAll (s needle repl : Str) : Str := replaceAllAux s.length s needle repl

/-- Python needle-in-s test (also re.search of a literal pattern). -/
def containsStr : Str → Str → Bool
  | [], pat => pat.isEmpty
  | c :: rest, pat => pat.isPrefixOf (c :: rest) || containsStr rest pat

/-- Fuel-bounded worker counting non-overlapping occurrences of pat in s. -/
def countSubAux : Nat → Str → Str → Nat
  | 0, _, _ => 0
  | fuel + 1, s, pat =>
    match s with
    | [] => 0
    | c :: rest =>
      if pat ≠ [] ∧ pat.isPrefixOf (c :: rest) then
        countSubAux fuel ((c :: rest).drop pat.length) pat + 1
      else
        countSubAux fuel rest pat

/-- Number of non-overlapping occurrences of pat in s (Python s.count(pat)). -/
def countSub (s pat : Str) : Nat := countSubAux s.length s pat

/-- Python splitlines(True) restricted to the newline terminator: split into
lines, each keeping its trailing newline. -/
def splitlinesKeep : Str → List Str
  | [] => []
  | c :: rest =>
    if c = '\n' then [c] :: splitlinesKeep rest
    else
      match splitlinesKeep rest with
      | [] => [[c]]
      | l :: ls => (c :: l) :: ls

/-- Python dict lookup d.get(k) on an association list whose keys are unique
(the invariant of a Python dict). -/
def dictLookup {α : Type} : List (Str × α) → Str → Option α
  | [], _ => none
  | (k1, v) :: rest, k => if k1 = k then some v else dictLookup rest k

/-- Python dict assignment d[k] = v: replace the value at an existing key in
place, or append a new binding (insertion order preserved). -/
def dictInsert {α : Type} : List (Str × α) → Str → α → List (Str × α)
  | [], k, v => [(k, v)]
  | (k1, v1) :: rest, k, v =>
    if k1 = k then (k1, v) :: rest else (k1, v1) :: dictInsert rest k v

/-- Python d.keys(), in insertion order. -/
def dictKeys {α : Type} (d : List (Str × α)) : List Str := d.map Prod.fst

/-- The module constant SORT_KEY. -/
def SORT_KEY : Str := lit "sort"

/-- The module constant FUNC_NAME_KEY. -/
def FUNC_NAME_KEY : Str := lit "func_name"

/-- get_href from the source: copy the current query dict, override one key,
serialize every pair as key=val followed by an ampersand, prefix the whole
with a question mark and drop the final character (href[:-1]). -/
def get_href (query : List (Str × Str)) (key val : Str) : Str :=
  ((lit "?") ++
    ((dictInsert query key val).map (fun kv => kv.1 ++ lit "=" ++ kv.2 ++ lit "&")).flatten).dropLast

/-- Bottle 0.12 html_escape, applied by unescaped-free template slots: the
five sequential str.replace calls of the library function. -/
def htmlEscape (s : Str) : Str :=
  replaceAll (replaceAll (replaceAll (replaceAll (replaceAll s
    (lit "&") (lit "&amp;"))
    (lit "<") (lit "&lt;"))
    (lit ">") (lit "&gt;"))
    (lit "\"") (lit "&quot;"))
    apos (lit "&#039;")

/-- The rendered sort-link template of _process_header: an anchor whose href
sets the sort query parameter (both template slots are escaped slots). -/
def sortAnchor (query : List (Str × Str)) (key val : Str) : Str :=
  lit "<a href=" ++ apos ++ htmlEscape (get_href query SORT_KEY val) ++ apos ++
    lit ">" ++ htmlEscape key ++ lit "</a>"

/-- The rendered function-link template of _process_lines: an anchor whose
href sets the func_name query parameter. -/
def funcAnchor (query : List (Str × Str)) (func_name : Str) : Str :=
  lit "<a href=" ++ apos ++ htmlEscape (get_href query FUNC_NAME_KEY func_name) ++ apos ++
    lit ">" ++ htmlEscape func_name ++ lit "</a>"

/-- CProfileVStats.IGNORE_FUNC_NAMES. -/
def IGNORE_FUNC_NAMES : List Str := [lit "function", lit ""]

/-- CProfileVStats.DEFAULT_SORT_ARG. -/
def DEFAULT_SORT_ARG : Str := lit "cumulative"

/-- CProfileVStats.SORT_ARGS, in the order the source literal writes it
(the iteration order of the dict is modelled as that order; for the real
header line the five replacements are independent, so the order does not
affect the result). -/
def SORT_ARGS : List (Str × Str) :=
  [(lit "ncalls", lit "calls"), (lit "tottime", lit "time"),
   (lit "cumtime", lit "cumulative"), (lit "filename", lit "module"),
   (lit "lineno", lit "nfl")]

/-- re.search of HEADER_LINE_REGEX, the alternation of the three fixed column
markers. -/
def headerMatchLine (line : Str) : Bool :=
  containsStr line (lit "ncalls") || containsStr line (lit "tottime") ||
    containsStr line (lit "cumtime")

/-- The body of the _process_header loop on the matched line: for each
SORT_ARGS entry, line = line.replace(key, url_link). -/
def rewriteHeaderLine (query : List (Str × Str)) (line : Str) : Str :=
  SORT_ARGS.foldl (fun l kv => replaceAll l kv.1 (sortAnchor query kv.1 kv.2)) line

/-- The _process_header loop over the line list: the first line matching
HEADER_LINE_REGEX is rewritten, then the loop breaks. -/
def processHeaderLines (query : List (Str × Str)) : List Str → List Str
  | [] => []
  | l :: ls =>
    if headerMatchLine l then rewriteHeaderLine query l :: ls
    else l :: processHeaderLines query ls

/-- CProfileVStats._process_header. -/
def process_header (query : List (Str × Str)) (output : Str) : Str :=
  (processHeaderLines query (splitlinesKeep output)).flatten

/-- Split a string around its last opening parenthesis: returns the part
before it and the part after it, or none when no opening parenthesis occurs.
This is where the greedy first group of STATS_LINE_REGEX puts the split. -/
def splitAtLastOpen : Str → Option (Str × Str)
  | [] => none
  | c :: rest =>
    match splitAtLastOpen rest with
    | some (p, n) => some (c :: p, n)
    | none => if c = '(' then some ([], rest) else none

/-- Drop the trailing newline of a line if present: the dollar anchor of the
regex matches just before a trailing newline. -/
def stripNl (line : Str) : Str :=
  if line.getLast? = some '\n' then line.dropLast else line

/-- re.search of STATS_LINE_REGEX on one line (lines produced by splitlines
contain no interior newline): the line must end in a closing parenthesis,
the first group greedily extends to the last opening parenthesis, and the
second group is what sits between that and the final closing parenthesis. -/
def statsLineMatch (line : Str) : Option (Str × Str) :=
  let core := stripNl line
  if core.getLast? = some ')' then splitAtLastOpen core.dropLast else none

/-- The body of the _process_lines loop on one line: a matched line whose
captured name is not ignored is replaced by the rendered line template
(escaped prefix, raw anchor, literal newline); every other line is kept. -/
def processLine (query : List (Str × Str)) (line : Str) : Str :=
  match statsLineMatch line with
  | none => line
  | some (p, n) =>
    if n ∈ IGNORE_FUNC_NAMES then line
    else htmlEscape p ++ lit "(" ++ funcAnchor query n ++ lit ")" ++ lit "\n"

/-- CProfileVStats._process_lines. -/
def process_lines (query : List (Str × Str)) (output : Str) : Str :=
  ((splitlinesKeep output).map (processLine query)).flatten

/-- The opaque pstats.Stats collaborator: what each print operation writes to
the object stream, as a function of the current sort argument and of the
restriction / function name passed to it. -/
structure Engine where
  table : Str → Str → Str
  callersOf : Str → Str → Str
  calleesOf : Str → Str → Str

/-- The CProfileVStats wrapper state: the underlying statistics object, the
sort argument last applied to it, and the accumulation stream. -/
structure CProfileVStats where
  engine : Engine
  sortArg : Str
  stream : Str

/-- CProfileVStats.__init__ for a successfully constructed Stats object:
fresh stream, no sort applied yet. -/
def mkCProfileVStats (e : Engine) : CProfileVStats :=
  { engine := e, sortArg := [], stream := [] }

/-- CProfileVStats.reset_stream. -/
def CProfileVStats.reset_stream (o : CProfileVStats) : CProfileVStats :=
  { o with stream := [] }

/-- CProfileVStats.read: take the stream content, reset the stream, then
apply pass 1 (_process_header) and pass 2 (_process_lines) to the taken
content.  Returns the processed value together with the updated object. -/
def CProfileVStats.read (o : CProfileVStats) (query : List (Str × Str)) :
    Str × CProfileVStats :=
  (process_lines query (process_header query o.stream), o.reset_stream)

/-- CProfileVStats.show (print_stats with a restriction, appended to the
stream).  Named show_table because show is a Lean keyword. -/
def CProfileVStats.show_table (o : CProfileVStats) (restriction : Str) :
    CProfileVStats :=
  { o with stream := o.stream ++ o.engine.table o.sortArg restriction }

/-- CProfileVStats.show_callers. -/
def CProfileVStats.show_callers (o : CProfileVStats) (func_name : Str) :
    CProfileVStats :=
  { o with stream := o.stream ++ o.engine.callersOf o.sortArg func_name }

/-- CProfileVStats.show_callees. -/
def CProfileVStats.show_callees (o : CProfileVStats) (func_name : Str) :
    CProfileVStats :=
  { o with stream := o.stream ++ o.engine.calleesOf o.sortArg func_name }

/-- CProfileVStats.sort: an empty sort argument falls back to
DEFAULT_SORT_ARG (sort = sort or self.DEFAULT_SORT_ARG). -/
def CProfileVStats.sort (o : CProfileVStats) (s : Str) : CProfileVStats :=
  { o with sortArg := if s = [] then DEFAULT_SORT_ARG else s }

/-- The file system as seen by the program.  isfileAt base name resolves the
relative path name against the directory base, so os.path.isfile(d) for a
bare listdir entry d is isfileAt cwd d.  statsOf base name is the outcome of
pstats.Stats(name) with the relative name resolved against base: none models
a raised construction exception. -/
structure FS where
  cwd : Str
  listdir : Str → List Str
  isfileAt : Str → Str → Bool
  isdir : Str → Bool
  statsOf : Str → Str → Option Engine

/-- Raised Python exceptions that the embedding distinguishes. -/
inductive PyError where
  | keyError (k : Str)
  | attributeError (a : Str)
  | typeError
deriving DecidableEq

/-- The pieces of output the stats_template emits, in order.  head covers
everything through the opening body tag and title, statsPre the primary
table block, the two panels the conditional drill-down blocks, and footer
the closing body and html tags. -/
inductive Segment where
  | head (filenames : List Str)
  | statsPre (s : Str)
  | callersPanel (s : Str)
  | calleesPanel (s : Str)
  | footer
deriving DecidableEq

/-- What a request handler produces: a rendered page, a distinguishable
not-found response, or a raised (unhandled) Python exception. -/
inductive HandlerResult where
  | page (segments : List Segment)
  | notFound
  | fault (e : PyError)
deriving DecidableEq

/-- The stats_template rendered by bottle SimpleTemplate.  Neither of the
two percent-if blocks in the source template is closed by a percent-end
line, so the callees block and the closing tags sit inside the callers
block: the callees panel (and the footer) is emitted only when the callers
string is truthy as well. -/
def renderSegments (filenames : List Str) (stats callers callees : Str) :
    List Segment :=
  [Segment.head filenames, Segment.statsPre stats] ++
    (if callers = [] then []
     else Segment.callersPanel callers ::
       (if callees = [] then [] else [Segment.calleesPanel callees, Segment.footer]))

/-- Number of callers panels on a page. -/
def countCallersPanels (p : List Segment) : Nat :=
  p.countP (fun s => match s with | Segment.callersPanel _ => true | _ => false)

/-- Number of callees panels on a page. -/
def countCalleesPanels (p : List Segment) : Nat :=
  p.countP (fun s => match s with | Segment.calleesPanel _ => true | _ => false)

/-- Number of primary table blocks on a page. -/
def countStatsPre (p : List Segment) : Nat :=
  p.countP (fun s => match s with | Segment.statsPre _ => true | _ => false)

/-- The segments of a page result (empty for a non-page result). -/
def pageSegs : HandlerResult → List Segment
  | HandlerResult.page s => s
  | _ => []

/-- Whether a handler result is a rendered page. -/
def isPage : HandlerResult → Bool
  | HandlerResult.page _ => true
  | _ => false

/-- The loaded-map / unsupported-list pair created by load_stats_objects.
Field names follow the source attributes self.stats_obj and
self.unsupported_files. -/
structure RegState where
  stats_obj : List (Str × CProfileVStats)
  unsupported_files : List Str

/-- The CProfileV server state.  registry = none models the state before
load_stats_objects has ever run: the stats_obj and unsupported_files
attributes do not exist yet and any access raises AttributeError. -/
structure CProfileV where
  cprofile_output : List Str
  watch_directory : Option Str
  registry : Option RegState

/-- CProfileV.__init__.  os.path.isdir(None) raises TypeError, so a missing
watch argument makes construction itself fail; a string argument that is not
a directory clears watch_directory.  No load happens here: registry is left
unset.  (Path normalization of the watch directory and the bind
address/port/quiet fields carry no claim and are elided.) -/
def CProfileV.init (fs : FS) (cprofile_output : List Str)
    (watch_directory : Option Str) : Except PyError CProfileV :=
  match watch_directory with
  | none => Except.error PyError.typeError
  | some w =>
    Except.ok { cprofile_output := cprofile_output,
                watch_directory := if fs.isdir w then some w else none,
                registry := none }

/-- The candidate source list of one load: in watch mode, the bare entries of
os.listdir filtered by os.path.isfile(d), which resolves each bare name
against the process working directory (the source does not join the entry
onto the watched directory); otherwise the fixed startup list. -/
def candidateFiles (fs : FS) (st : CProfileV) : List Str :=
  match st.watch_directory with
  | some w => (fs.listdir w).filter (fun d => fs.isfileAt fs.cwd d)
  | none => st.cprofile_output

/-- The loop of load_stats_objects over the candidate files: construction
failure appends the source to unsupported_files, success stores the adapter
under the source key. -/
def loadFrom (tryLoad : Str → Option Engine) : List Str → RegState → RegState
  | [], acc => acc
  | f :: files, acc =>
    match tryLoad f with
    | none =>
      loadFrom tryLoad files
        { acc with unsupported_files := acc.unsupported_files ++ [f] }
    | some e =>
      loadFrom tryLoad files
        { acc with stats_obj := dictInsert acc.stats_obj f (mkCProfileVStats e) }

/-- CProfileV.load_stats_objects: start from fresh empty attributes and fill
them from the candidate list; CProfileVStats(f) opens the (relative) source
path against the process working directory. -/
def CProfileV.load_stats_objects (fs : FS) (st : CProfileV) : RegState :=
  loadFrom (fun f => fs.statsOf fs.cwd f) (candidateFiles fs st) ⟨[], []⟩

/-- CProfileV.index: reload first when a watch directory is set, then read
the stats_obj keys and the unsupported list (an AttributeError if the
attributes were never created).  The page data is the pair of loaded names
and unsupported names; the HTML assembly around it carries no claim. -/
def CProfileV.index (fs : FS) (st : CProfileV) :
    Except PyError ((List Str × List Str) × CProfileV) :=
  let st1 := if st.watch_directory.isSome
    then { st with registry := some (CProfileV.load_stats_objects fs st) }
    else st
  match st1.registry with
  | none => Except.error (PyError.attributeError (lit "stats_obj"))
  | some reg => Except.ok ((dictKeys reg.stats_obj, reg.unsupported_files), st1)

/-- CProfileV.route_handler: read func_name and sort from the query (absent
keys default to the empty string), look the capture up by name with a plain
dict subscript (KeyError when absent), render the primary table, and render
the two drill-down views only when func_name is nonempty.  The adapter
object is mutated in place, so the updated registry is returned as well. -/
def CProfileV.route_handler (st : CProfileV) (name : Str)
    (query : List (Str × Str)) : HandlerResult × CProfileV :=
  match st.registry with
  | none => (HandlerResult.fault (PyError.attributeError (lit "stats_obj")), st)
  | some reg =>
    let func_name := (dictLookup query FUNC_NAME_KEY).getD []
    let sortq := (dictLookup query SORT_KEY).getD []
    match dictLookup reg.stats_obj name with
    | none => (HandlerResult.fault (PyError.keyError name), st)
    | some obj =>
      let r1 := ((obj.sort sortq).show_table func_name).read query
      if func_name = [] then
        (HandlerResult.page (renderSegments st.cprofile_output r1.1 [] []),
         { st with registry := some { reg with stats_obj := dictInsert reg.stats_obj name r1.2 } })
      else
        let r2 := ((r1.2.sort sortq).show_callers func_name).read query
        let r3 := ((r2.2.sort sortq).show_callees func_name).read query
        (HandlerResult.page (renderSegments st.cprofile_output r1.1 r2.1 r3.1),
         { st with registry := some { reg with stats_obj := dictInsert reg.stats_obj name r3.2 } })

/-- The effective sort argument a request applies: the sort query parameter,
or DEFAULT_SORT_ARG when absent or empty. -/
def effSort (query : List (Str × Str)) : Str :=
  if (dictLookup query SORT_KEY).getD [] = [] then DEFAULT_SORT_ARG
  else (dictLookup query SORT_KEY).getD []

/-- Serialization of one query pair as the spec words it: key=value. -/
def pairSerial (kv : Str × Str) : Str := kv.1 ++ lit "=" ++ kv.2

/-- Pieces joined by an ampersand, as the spec words the query serialization. -/
def ampJoin : List Str → Str
  | [] => []
  | [x] => x
  | x :: y :: t => x ++ '&' :: ampJoin (y :: t)

/-- Split a serialized query string at every ampersand. -/
def splitOnAmp : Str → List Str
  | [] => [[]]
  | c :: rest =>
    match splitOnAmp rest with
    | [] => [[c]]
    | h :: t => if c = '&' then [] :: h :: t else (c :: h) :: t

/-- Split one serialized pair at its first equals sign. -/
def splitKV : Str → Str × Str
  | [] => ([], [])
  | c :: rest =>
    if c = '=' then ([], rest)
    else ((splitKV rest).1.cons c, (splitKV rest).2)

/-- Parse a serialized query string back into key-value pairs. -/
def parseQS (s : Str) : List (Str × Str) := (splitOnAmp s).map splitKV

/-- A statistics engine with fixed outputs, for concrete states. -/
def trivEngine : Engine :=
  { table := fun _ _ => lit "out\n",
    callersOf := fun _ _ => lit "c\n",
    calleesOf := fun _ _ => lit "e\n" }

/-- A concrete server state whose loaded map holds exactly one capture. -/
def stLoaded : CProfileV :=
  { cprofile_output := [lit "a.prof"], watch_directory := none,
    registry := some ⟨[(lit "a.prof", mkCProfileVStats trivEngine)], []⟩ }

/-- A file system with no watched directory content, on which every capture
source loads fine. -/
def fsExplicit : FS :=
  { cwd := lit "/home", listdir := fun _ => [], isfileAt := fun _ _ => false,
    isdir := fun _ => false, statsOf := fun _ _ => some trivEngine }

/-- A file system where the watched directory /watch holds the regular file
a.prof and the subdirectory sub, while the working directory /cwd holds a
regular file that happens to be called sub. -/
def fsWatch : FS :=
  { cwd := lit "/cwd",
    listdir := fun d => if d = lit "/watch" then [lit "a.prof", lit "sub"] else [],
    isfileAt := fun base name =>
      (base == lit "/watch" && name == lit "a.prof") ||
        (base == lit "/cwd" && name == lit "sub"),
    isdir := fun d => d == lit "/watch",
    statsOf := fun _ _ => none }

/-- A server state configured to watch /watch. -/
def stWatch : CProfileV :=
  { cprofile_output := [], watch_directory := some (lit "/watch"),
    registry := none }

/-- An engine with fixed nonempty outputs, for the drill-down instance. -/
def engine9 : Engine :=
  { table := fun _ _ => lit "table\n",
    callersOf := fun _ _ => lit "callers\n",
    calleesOf := fun _ _ => lit "callees\n" }

/-- A loaded server state for the drill-down instance. -/
def st9 : CProfileV :=
  { cprofile_output := [lit "a.prof"], watch_directory := none,
    registry := some ⟨[(lit "a.prof", mkCProfileVStats engine9)], []⟩ }

/-- A query selecting a drill-down target. -/
def q9 : List (Str × Str) := [(FUNC_NAME_KEY, lit "bar")]

/-- The header line pstats prints above the statistics table. -/
def canonicalHeaderLine : Str :=
  lit "   ncalls  tottime  percall  cumtime  percall filename:lineno(function)\n"

/-! Helper lemmas. -/

theorem ne_nil_left {a b : Str} (h : a ≠ []) : a ++ b ≠ [] :=
  fun e => h (List.append_eq_nil.mp e).1

theorem ne_nil_right {a b : Str} (h : b ≠ []) : a ++ b ≠ [] :=
  fun e => h (List.append_eq_nil.mp e).2

theorem replaceAllAux_ne_nil :
    ∀ (fuel : Nat) (s needle repl : Str), s ≠ [] → repl ≠ [] →
      replaceAllAux fuel s needle repl ≠ [] := by
  intro fuel
  induction fuel with
  | zero => intro s n r hs _; simpa [replaceAllAux] using hs
  | succ f ih =>
    intro s n r hs hr
    cases s with
    | nil => exact absurd rfl hs
    | cons c rest =>
      simp only [replaceAllAux]
      split
      · exact ne_nil_left hr
      · simp

theorem replaceAll_ne_nil {s : Str} (needle repl : Str) (hs : s ≠ [])
    (hr : repl ≠ []) : replaceAll s needle repl ≠ [] :=
  replaceAllAux_ne_nil _ _ _ _ hs hr

theorem sortAnchor_ne_nil (q : List (Str × Str)) (k v : Str) :
    sortAnchor q k v ≠ [] := by
  have h0 : lit "<a href=" ≠ [] := by decide
  unfold sortAnchor
  exact ne_nil_left (ne_nil_left (ne_nil_left (ne_nil_left (ne_nil_left
    (ne_nil_left h0)))))

theorem foldl_replace_ne_nil (q : List (Str × Str)) :
    ∀ (args : List (Str × Str)) (l : Str), l ≠ [] →
      args.foldl (fun l kv => replaceAll l kv.1 (sortAnchor q kv.1 kv.2)) l ≠ []
  | [], _, h => h
  | kv :: args, l, h =>
    foldl_replace_ne_nil q args _
      (replaceAll_ne_nil _ _ h (sortAnchor_ne_nil q kv.1 kv.2))

theorem rewriteHeaderLine_ne_nil (q : List (Str × Str)) {l : Str} (h : l ≠ []) :
    rewriteHeaderLine q l ≠ [] :=
  foldl_replace_ne_nil q SORT_ARGS l h

theorem splitlinesKeep_ne_nil {s : Str} (h : s ≠ []) : splitlinesKeep s ≠ [] := by
  cases s with
  | nil => exact absurd rfl h
  | cons c rest =>
    simp only [splitlinesKeep]
    split
    · simp
    · split <;> simp

theorem splitlinesKeep_mem_ne_nil : ∀ {s l : Str}, l ∈ splitlinesKeep s → l ≠ [] := by
  intro s
  induction s with
  | nil => intro l h; simp [splitlinesKeep] at h
  | cons c rest ih =>
    intro l h
    by_cases hc : c = '\n'
    · simp only [splitlinesKeep, if_pos hc] at h
      rcases List.mem_cons.mp h with h1 | h1
      · subst h1; simp
      · exact ih h1
    · cases hsp : splitlinesKeep rest with
      | nil =>
        simp only [splitlinesKeep, if_neg hc, hsp] at h
        simp at h; subst h; simp
      | cons l0 ls =>
        simp only [splitlinesKeep, if_neg hc, hsp] at h
        rcases List.mem_cons.mp h with h1 | h1
        · subst h1; simp
        · exact ih (by rw [hsp]; exact List.mem_cons_of_mem _ h1)

theorem processLine_ne_nil (q : List (Str × Str)) {l : Str} (h : l ≠ []) :
    processLine q l ≠ [] := by
  cases hm : statsLineMatch l with
  | none => simp only [processLine, hm]; exact h
  | some pn =>
    obtain ⟨p, n⟩ := pn
    simp only [processLine, hm]
    by_cases hig : n ∈ IGNORE_FUNC_NAMES
    · simpa [hig] using h
    · have hnl : lit "\n" ≠ [] := by decide
      simpa [hig] using ne_nil_right (a := htmlEscape p ++ lit "(" ++ funcAnchor q n ++ lit ")") hnl

theorem exists_cons_splitlines {s : Str} (h : s ≠ []) :
    ∃ l ls, splitlinesKeep s = l :: ls := by
  cases hs : splitlinesKeep s with
  | nil => exact absurd hs (splitlinesKeep_ne_nil h)
  | cons a b => exact ⟨a, b, rfl⟩

theorem process_lines_ne_nil (q : List (Str × Str)) {s : Str} (h : s ≠ []) :
    process_lines q s ≠ [] := by
  obtain ⟨l, ls, hsp⟩ := exists_cons_splitlines h
  have hl : l ≠ [] := splitlinesKeep_mem_ne_nil (by rw [hsp]; exact List.mem_cons_self l ls)
  unfold process_lines
  rw [hsp]
  simp only [List.map_cons, List.flatten_cons]
  exact ne_nil_left (processLine_ne_nil q hl)

theorem process_header_ne_nil (q : List (Str × Str)) {s : Str} (h : s ≠ []) :
    process_header q s ≠ [] := by
  obtain ⟨l, ls, hsp⟩ := exists_cons_splitlines h
  have hl : l ≠ [] := splitlinesKeep_mem_ne_nil (by rw [hsp]; exact List.mem_cons_self l ls)
  unfold process_header
  rw [hsp]
  by_cases hm : headerMatchLine l = true
  · simp only [processHeaderLines, if_pos hm, List.flatten_cons]
    exact ne_nil_left (rewriteHeaderLine_ne_nil q hl)
  · simp only [processHeaderLines, if_neg hm, List.flatten_cons]
    exact ne_nil_left hl

theorem splitAtLastOpen_eq_none : ∀ {s : Str}, '(' ∉ s → splitAtLastOpen s = none := by
  intro s
  induction s with
  | nil => intro _; rfl
  | cons c rest ih =>
    intro h
    have hc : ¬(c = '(') := by intro e; subst e; exact h (List.mem_cons_self _ _)
    have ht : '(' ∉ rest := fun hm => h (List.mem_cons_of_mem _ hm)
    simp only [splitAtLastOpen, ih ht]
    simp [hc]

theorem splitAtLastOpen_last : ∀ (p : Str) {n : Str}, '(' ∉ n →
    splitAtLastOpen (p ++ '(' :: n) = some (p, n) := by
  intro p
  induction p with
  | nil =>
    intro n hn
    simp only [List.nil_append, splitAtLastOpen, splitAtLastOpen_eq_none hn]
    simp
  | cons c p ih =>
    intro n hn
    have ihh := ih hn
    simp only [List.cons_append, splitAtLastOpen]
    rw [show splitAtLastOpen (p.append ('(' :: n)) = some (p, n) from ihh]

theorem statsLineMatch_eq {line p n : Str}
    (h : stripNl line = p ++ lit "(" ++ n ++ lit ")") (hn : '(' ∉ n) :
    statsLineMatch line = some (p, n) := by
  have hcore : stripNl line = (p ++ '(' :: n) ++ [')'] := by
    rw [h, show lit "(" = ['('] from rfl, show lit ")" = [')'] from rfl]
    simp [List.append_assoc]
  simp only [statsLineMatch, hcore, List.getLast?_concat, List.dropLast_concat]
  simp [splitAtLastOpen_last p hn]

theorem dictInsert_ne_nil {α : Type} (d : List (Str × α)) (k : Str) (v : α) :
    dictInsert d k v ≠ [] := by
  cases d with
  | nil => simp [dictInsert]
  | cons kv rest =>
    obtain ⟨k1, v1⟩ := kv
    simp only [dictInsert]
    split <;> simp

theorem dictInsert_mem_self {α : Type} :
    ∀ (d : List (Str × α)) (k : Str) (v : α), (k, v) ∈ dictInsert d k v := by
  intro d
  induction d with
  | nil => intro k v; simp [dictInsert]
  | cons kv rest ih =>
    intro k v
    obtain ⟨k1, v1⟩ := kv
    by_cases e : k1 = k
    · simp only [dictInsert, if_pos e]
      rw [e]
      exact List.mem_cons_self _ _
    · simp only [dictInsert, if_neg e]
      exact List.mem_cons_of_mem _ (ih k v)

theorem dictInsert_mem_other {α : Type} :
    ∀ (d : List (Str × α)) (k : Str) (v : α) (k1 : Str) (v1 : α), k1 ≠ k →
      ((k1, v1) ∈ d ↔ (k1, v1) ∈ dictInsert d k v) := by
  intro d
  induction d with
  | nil =>
    intro k v k1 v1 hk
    constructor
    · intro h; simp at h
    · intro h
      simp [dictInsert] at h
      exact absurd h.1 hk
  | cons kv rest ih =>
    intro k v k1 v1 hk
    obtain ⟨k2, v2⟩ := kv
    by_cases e : k2 = k
    · subst e
      simp only [dictInsert, if_pos rfl]
      have h1 : ¬((k1, v1) = (k2, v2)) := fun e1 => hk (congrArg Prod.fst e1)
      have h2 : ¬((k1, v1) = (k2, v)) := fun e2 => hk (congrArg Prod.fst e2)
      simp [List.mem_cons, h1, h2]
    · simp only [dictInsert, if_neg e]
      simp [List.mem_cons, ih k v k1 v1 hk]

theorem dictKeys_mem_of_pair {α : Type} {d : List (Str × α)} {k : Str} {v : α}
    (h : (k, v) ∈ d) : k ∈ dictKeys d :=
  List.mem_map.mpr ⟨(k, v), h, rfl⟩

theorem dictInsert_val_unique {α : Type} :
    ∀ (d : List (Str × α)) (k : Str) (v : α), (dictKeys d).Nodup →
      ∀ v1, (k, v1) ∈ dictInsert d k v → v1 = v := by
  intro d
  induction d with
  | nil =>
    intro k v _ v1 h
    simp [dictInsert] at h
    exact h
  | cons kv rest ih =>
    intro k v hnd v1 h
    obtain ⟨k2, v2⟩ := kv
    have hnd1 : k2 ∉ dictKeys rest ∧ (dictKeys rest).Nodup := by
      simp only [dictKeys, List.map_cons] at hnd
      exact List.nodup_cons.mp hnd
    by_cases e : k2 = k
    · subst e
      simp only [dictInsert, if_pos rfl] at h
      rcases List.mem_cons.mp h with h1 | h1
      · exact congrArg Prod.snd h1
      · exact absurd (dictKeys_mem_of_pair h1) hnd1.1
    · simp only [dictInsert, if_neg e] at h
      rcases List.mem_cons.mp h with h1 | h1
      · exact absurd (congrArg Prod.fst h1).symm e
      · exact ih k v hnd1.2 v1 h1

theorem flatten_amp_ne_nil : ∀ {ms : List Str}, ms ≠ [] →
    ((ms.map (fun x => x ++ ['&'])).flatten) ≠ [] := by
  intro ms h
  cases ms with
  | nil => exact absurd rfl h
  | cons x t =>
    simp only [List.map_cons, List.flatten_cons]
    exact ne_nil_left (ne_nil_right (by simp))

theorem amp_serial_dropLast : ∀ (ms : List Str), ms ≠ [] →
    ((ms.map (fun x => x ++ ['&'])).flatten).dropLast = ampJoin ms := by
  intro ms
  induction ms with
  | nil => intro h; exact absurd rfl h
  | cons x t ih =>
    intro _
    cases t with
    | nil => simp [ampJoin, List.dropLast_concat]
    | cons y t2 =>
      have hne : (((y :: t2).map (fun x => x ++ ['&'])).flatten) ≠ [] :=
        flatten_amp_ne_nil (by simp)
      simp only [List.map_cons, List.flatten_cons] at hne ⊢
      rw [List.dropLast_append_of_ne_nil _ hne]
      have iht := ih (by simp)
      simp only [List.map_cons, List.flatten_cons] at iht
      rw [iht]
      simp [ampJoin, List.append_assoc]

theorem get_href_eq (query : List (Str × Str)) (key val : Str) :
    get_href query key val =
      lit "?" ++ ampJoin ((dictInsert query key val).map pairSerial) := by
  unfold get_href
  have hmap : (dictInsert query key val).map (fun kv => kv.1 ++ lit "=" ++ kv.2 ++ lit "&")
      = ((dictInsert query key val).map pairSerial).map (fun x => x ++ ['&']) := by
    rw [List.map_map]
    rfl
  rw [hmap]
  have hms : (dictInsert query key val).map pairSerial ≠ [] := by
    intro e
    exact dictInsert_ne_nil query key val (List.map_eq_nil_iff.mp e)
  have hfl := flatten_amp_ne_nil hms
  rw [show lit "?" = ['?'] from rfl, List.dropLast_append_of_ne_nil _ hfl]
  rw [amp_serial_dropLast _ hms]

theorem ampJoin_mem_decomp : ∀ {ms : List Str} {x : Str}, x ∈ ms →
    ∃ a b : Str, ampJoin ms = a ++ x ++ b := by
  intro ms
  induction ms with
  | nil => intro x h; simp at h
  | cons y t ih =>
    intro x h
    cases t with
    | nil =>
      simp at h
      subst h
      exact ⟨[], [], by simp [ampJoin]⟩
    | cons z t2 =>
      rcases List.mem_cons.mp h with h1 | h1
      · subst h1
        exact ⟨[], '&' :: ampJoin (z :: t2), by simp [ampJoin]⟩
      · obtain ⟨a, b, hab⟩ := ih h1
        exact ⟨y ++ '&' :: a, b, by simp [ampJoin, hab, List.append_assoc]⟩

theorem dictKeys_insert_mem {α : Type} :
    ∀ (d : List (Str × α)) (k : Str) (v : α) (s : Str),
      (s ∈ dictKeys (dictInsert d k v)) ↔ (s ∈ dictKeys d ∨ s = k) := by
  intro d
  induction d with
  | nil => intro k v s; simp [dictInsert, dictKeys]
  | cons kv rest ih =>
    intro k v s
    obtain ⟨k2, v2⟩ := kv
    by_cases e : k2 = k
    · subst e
      have hins : dictInsert ((k2, v2) :: rest) k2 v = (k2, v) :: rest := by
        simp [dictInsert]
      rw [hins]
      simp only [dictKeys, List.map_cons, List.mem_cons]
      tauto
    · simp only [dictInsert, if_neg e]
      simp only [dictKeys, List.map_cons, List.mem_cons] at ih ⊢
      rw [ih k v s]
      tauto

theorem loadFrom_mem_keys (tryLoad : Str → Option Engine) :
    ∀ (files : List Str) (acc : RegState) (s : Str),
      (s ∈ dictKeys (loadFrom tryLoad files acc).stats_obj) ↔
        (s ∈ dictKeys acc.stats_obj ∨ (s ∈ files ∧ (tryLoad s).isSome)) := by
  intro files
  induction files with
  | nil => intro acc s; simp [loadFrom]
  | cons f files ih =>
    intro acc s
    cases hf : tryLoad f with
    | none =>
      simp only [loadFrom, hf]
      rw [ih]
      by_cases hs : s = f
      · subst hs; simp [hf]
      · simp [List.mem_cons, hs]
    | some e =>
      simp only [loadFrom, hf]
      rw [ih]
      simp only [dictKeys_insert_mem]
      by_cases hs : s = f
      · subst hs; simp [hf, List.mem_cons]
      · simp [List.mem_cons, hs]

theorem loadFrom_mem_unsupported (tryLoad : Str → Option Engine) :
    ∀ (files : List Str) (acc : RegState) (s : Str),
      (s ∈ (loadFrom tryLoad files acc).unsupported_files) ↔
        (s ∈ acc.unsupported_files ∨ (s ∈ files ∧ tryLoad s = none)) := by
  intro files
  induction files with
  | nil => intro acc s; simp [loadFrom]
  | cons f files ih =>
    intro acc s
    cases hf : tryLoad f with
    | none =>
      simp only [loadFrom, hf]
      rw [ih]
      by_cases hs : s = f
      · subst hs; simp [hf, List.mem_append]
      · simp [List.mem_cons, List.mem_append, hs]
    | some e =>
      simp only [loadFrom, hf]
      rw [ih]
      by_cases hs : s = f
      · subst hs; simp [hf]
      · simp [List.mem_cons, hs]

theorem renderSegments_counts (fns : List Str) (stats callers callees : Str) :
    countCallersPanels (renderSegments fns stats callers callees)
        = (if callers = [] then 0 else 1) ∧
      countCalleesPanels (renderSegments fns stats callers callees)
        = (if callers = [] then 0 else if callees = [] then 0 else 1) ∧
      countStatsPre (renderSegments fns stats callers callees) = 1 := by
  unfold renderSegments countCallersPanels countCalleesPanels countStatsPre
  by_cases hc : callers = []
  · simp [hc, List.countP_cons, List.countP_nil]
  · by_cases he : callees = []
    · simp [hc, he, List.countP_cons, List.countP_nil]
    · simp [hc, he, List.countP_cons, List.countP_nil]

theorem processHeaderLines_no_match (q : List (Str × Str)) :
    ∀ (ls : List Str), (∀ l ∈ ls, headerMatchLine l = false) →
      processHeaderLines q ls = ls := by
  intro ls
  induction ls with
  | nil => intro _; rfl
  | cons l ls ih =>
    intro h
    have h0 : headerMatchLine l = false := h l (List.mem_cons_self _ _)
    simp only [processHeaderLines, h0]
    simp [ih (fun x hx => h x (List.mem_cons_of_mem _ hx))]

theorem processHeaderLines_first (q : List (Str × Str)) :
    ∀ (pre : List Str) (hd : Str) (post : List Str),
      (∀ l ∈ pre, headerMatchLine l = false) → headerMatchLine hd = true →
      processHeaderLines q (pre ++ hd :: post) = pre ++ rewriteHeaderLine q hd :: post := by
  intro pre
  induction pre with
  | nil => intro hd post _ hh; simp [processHeaderLines, hh]
  | cons l pre ih =>
    intro hd post hp hh
    have h0 : headerMatchLine l = false := hp l (List.mem_cons_self _ _)
    simp only [List.cons_append, processHeaderLines, h0]
    simp [ih hd post (fun x hx => hp x (List.mem_cons_of_mem _ hx)) hh]

/-! Claim theorems. -/

/-- Claim C1, amended: for every request for a capture name that is not a key
of the loaded map, route_handler raises a KeyError carrying that name — an
unhandled lookup fault, not a distinguishable not-found response — and in
particular returns no rendered table. -/
theorem c1_unknown_capture_keyerror (st : CProfileV) (reg : RegState)
    (name : Str) (query : List (Str × Str))
    (h1 : st.registry = some reg) (h2 : dictLookup reg.stats_obj name = none) :
    (CProfileV.route_handler st name query).1 =
      HandlerResult.fault (PyError.keyError name) := by
  simp [CProfileV.route_handler, h1, h2]

/-- Claim C1, counterexample to the claim as stated: on a loaded registry
holding only a.prof, requesting missing.prof yields a raised KeyError, which
is not the not-found outcome (and is not a page). -/
theorem c1_counterexample :
    (CProfileV.route_handler stLoaded (lit "missing.prof") []).1 =
      HandlerResult.fault (PyError.keyError (lit "missing.prof")) ∧
    (CProfileV.route_handler stLoaded (lit "missing.prof") []).1 ≠
      HandlerResult.notFound ∧
    isPage (CProfileV.route_handler stLoaded (lit "missing.prof") []).1 = false := by
  refine ⟨by decide, by decide, by decide⟩

/-- Claim C1, witness: the amended theorem applied at a concrete state. -/
theorem c1_witness :
    (CProfileV.route_handler stLoaded (lit "nope") []).1 =
      HandlerResult.fault (PyError.keyError (lit "nope")) :=
  c1_unknown_capture_keyerror stLoaded
    ⟨[(lit "a.prof", mkCProfileVStats trivEngine)], []⟩ (lit "nope") [] rfl rfl

/-- Claim C2: after every run of load_stats_objects, a source is a key of the
loaded map exactly when it is a candidate whose adapter construction
succeeds, and is in the unsupported list exactly when it is a candidate whose
construction fails; hence the two collections are disjoint and their union is
the candidate source set. -/
theorem c2_registry_partition (fs : FS) (st : CProfileV) (s : Str) :
    ((s ∈ dictKeys (CProfileV.load_stats_objects fs st).stats_obj ∨
        s ∈ (CProfileV.load_stats_objects fs st).unsupported_files) ↔
      s ∈ candidateFiles fs st) ∧
    ¬(s ∈ dictKeys (CProfileV.load_stats_objects fs st).stats_obj ∧
        s ∈ (CProfileV.load_stats_objects fs st).unsupported_files) ∧
    (s ∈ dictKeys (CProfileV.load_stats_objects fs st).stats_obj ↔
      (s ∈ candidateFiles fs st ∧ (fs.statsOf fs.cwd s).isSome)) ∧
    (s ∈ (CProfileV.load_stats_objects fs st).unsupported_files ↔
      (s ∈ candidateFiles fs st ∧ fs.statsOf fs.cwd s = none)) := by
  have hk := loadFrom_mem_keys (fun f => fs.statsOf fs.cwd f)
    (candidateFiles fs st) ⟨[], []⟩ s
  have hu := loadFrom_mem_unsupported (fun f => fs.statsOf fs.cwd f)
    (candidateFiles fs st) ⟨[], []⟩ s
  simp only [dictKeys, List.map_nil, List.not_mem_nil, false_or] at hk hu
  unfold CProfileV.load_stats_objects
  simp only [dictKeys]
  refine ⟨?_, ?_, hk, hu⟩
  · rw [hk, hu]
    cases ho : fs.statsOf fs.cwd s <;> simp [ho]
  · intro hh
    rcases hh with ⟨ha, hb⟩
    rw [hk] at ha
    rw [hu] at hb
    rw [hb.2] at ha
    simp at ha

/-- Claim C3 (code bug): with an explicit capture list and no watch
directory, construction itself raises a TypeError (os.path.isdir of None);
and even when construction is made to succeed by passing a non-directory
watch string, the registry attributes are never created at startup, so both
the index request and the detail request raise AttributeError instead of
operating on a populated registry. -/
theorem c3_startup_load_missing :
    CProfileV.init fsExplicit [lit "a.prof"] none = Except.error PyError.typeError ∧
    CProfileV.init fsExplicit [lit "a.prof"] (some (lit "nodir")) =
      Except.ok { cprofile_output := [lit "a.prof"], watch_directory := none,
                  registry := none } ∧
    ({ cprofile_output := [lit "a.prof"], watch_directory := none,
       registry := none } : CProfileV).registry = none ∧
    CProfileV.index fsExplicit
        { cprofile_output := [lit "a.prof"], watch_directory := none,
          registry := none } =
      Except.error (PyError.attributeError (lit "stats_obj")) ∧
    (CProfileV.route_handler
        { cprofile_output := [lit "a.prof"], watch_directory := none,
          registry := none } (lit "a.prof") []).1 =
      HandlerResult.fault (PyError.attributeError (lit "stats_obj")) :=
  ⟨rfl, rfl, rfl, rfl, rfl⟩

/-- Claim C4 (code bug): on a file system where the watched directory /watch
holds the regular file a.prof and the subdirectory sub while the working
directory /cwd holds a regular file named sub, the code's candidate list is
the bare names that are regular files relative to the working directory —
the list containing only sub — and not the set of regular files directly
inside the watched directory, which is the list containing only a.prof. -/
theorem c4_watch_candidates_wrong_root :
    candidateFiles fsWatch stWatch = [lit "sub"] ∧
    ((fsWatch.listdir (lit "/watch")).filter
        (fun d => fsWatch.isfileAt (lit "/watch") d)) = [lit "a.prof"] ∧
    candidateFiles fsWatch stWatch ≠
      (fsWatch.listdir (lit "/watch")).filter
        (fun d => fsWatch.isfileAt (lit "/watch") d) := by
  refine ⟨by decide, by decide, by decide⟩

/-- Claim C5: for every current query mapping (with the unique keys of a
Python dict) and every key-value override, get_href returns a question mark
followed by the key=value serializations of the mapping-with-override joined
by ampersands; the overridden key carries the new value, every other binding
is preserved, the overridden key carries no stale value, and on the empty
mapping the result is the question mark followed by the single pair. -/
theorem c5_build_link (query : List (Str × Str)) (key val : Str)
    (hnd : (dictKeys query).Nodup) :
    get_href query key val =
      lit "?" ++ ampJoin ((dictInsert query key val).map pairSerial) ∧
    (key, val) ∈ dictInsert query key val ∧
    (∀ (k v : Str), k ≠ key → ((k, v) ∈ query ↔ (k, v) ∈ dictInsert query key val)) ∧
    (∀ v : Str, (key, v) ∈ dictInsert query key val → v = val) ∧
    (query = [] → get_href query key val = lit "?" ++ key ++ lit "=" ++ val) := by
  refine ⟨get_href_eq query key val, dictInsert_mem_self query key val,
    fun k v hk => dictInsert_mem_other query key val k v hk,
    dictInsert_val_unique query key val hnd, ?_⟩
  intro hq
  subst hq
  rw [get_href_eq]
  simp [dictInsert, pairSerial, ampJoin, List.append_assoc]

/-- Claim C5, witness: the spec's own example, with the sort key overridden
and the other parameter preserved. -/
theorem c5_witness :
    get_href [(lit "func_name", lit "bar"), (lit "sort", lit "time")]
        (lit "sort") (lit "calls") = lit "?func_name=bar&sort=calls" ∧
    (lit "sort", lit "calls") ∈
      dictInsert [(lit "func_name", lit "bar"), (lit "sort", lit "time")]
        (lit "sort") (lit "calls") := by
  have h := c5_build_link [(lit "func_name", lit "bar"), (lit "sort", lit "time")]
    (lit "sort") (lit "calls") (by decide)
  exact ⟨h.1.trans (by decide), h.2.1⟩

/-- Claim C6: in pass 2, for every line whose content (up to a trailing
newline) decomposes as a prefix, then the last opening parenthesis, then a
name, then the final closing parenthesis, the line is left unchanged when the
captured name is the literal word function or the empty string, and is
otherwise replaced by the prefix with the parenthesized name turned into an
anchor whose link sets the func_name parameter to that name. -/
theorem c6_funcname_linkify (query : List (Str × Str)) (line p n : Str)
    (h : stripNl line = p ++ lit "(" ++ n ++ lit ")") (hn : '(' ∉ n) :
    ((n = lit "function" ∨ n = []) → processLine query line = line) ∧
    (n ≠ lit "function" → n ≠ [] →
      processLine query line =
        htmlEscape p ++ lit "(" ++ funcAnchor query n ++ lit ")" ++ lit "\n") := by
  have hm := statsLineMatch_eq h hn
  constructor
  · intro hig
    have hmem : n ∈ IGNORE_FUNC_NAMES := by
      rcases hig with h1 | h1 <;> simp [IGNORE_FUNC_NAMES, h1] <;> decide
    simp only [processLine, hm, if_pos hmem]
  · intro h1 h2
    have hmem : n ∉ IGNORE_FUNC_NAMES := by
      simp only [IGNORE_FUNC_NAMES, List.mem_cons, List.not_mem_nil, or_false]
      push_neg
      exact ⟨h1, fun e => h2 (e.trans rfl)⟩
    simp only [processLine, hm, if_neg hmem]

/-- Claim C6, witness: a real statistics line gains an anchor, while a line
whose trailing group is the word function stays plain text. -/
theorem c6_witness :
    processLine [] (lit "foo.py:10(bar)\n") =
      htmlEscape (lit "foo.py:10") ++ lit "(" ++ funcAnchor [] (lit "bar") ++
        lit ")" ++ lit "\n" ∧
    processLine [] (lit "   24    0.030 built-in(function)\n") =
      lit "   24    0.030 built-in(function)\n" := by
  constructor
  · exact (c6_funcname_linkify [] (lit "foo.py:10(bar)\n") (lit "foo.py:10")
      (lit "bar") (by decide) (by decide)).2 (by decide) (by decide)
  · exact (c6_funcname_linkify [] (lit "   24    0.030 built-in(function)\n")
      (lit "   24    0.030 built-in") (lit "function") (by decide) (by decide)).1
      (Or.inl rfl)

set_option maxRecDepth 40000 in
/-- Claim C7: pass 1 rewrites only the first line containing one of the
markers ncalls, tottime, cumtime, leaving every other line untouched, and a
line list with no matching line is returned unchanged; on the canonical
pstats header line the rewrite produces exactly five anchors, one per
recognized column token, each linking the sort value of the fixed mapping. -/
theorem c7_header_linkify (query : List (Str × Str)) (pre post : List Str)
    (hd : Str) (hpre : ∀ l ∈ pre, headerMatchLine l = false)
    (hh : headerMatchLine hd = true) :
    processHeaderLines query (pre ++ hd :: post) =
      pre ++ rewriteHeaderLine query hd :: post ∧
    (∀ ls : List Str, (∀ l ∈ ls, headerMatchLine l = false) →
      processHeaderLines query ls = ls) ∧
    (countSub (rewriteHeaderLine [] canonicalHeaderLine) (lit "<a href=") = 5 ∧
     countSub (rewriteHeaderLine [] canonicalHeaderLine)
       (lit "<a href=" ++ apos ++ lit "?sort=calls" ++ apos ++ lit ">ncalls</a>") = 1 ∧
     countSub (rewriteHeaderLine [] canonicalHeaderLine)
       (lit "<a href=" ++ apos ++ lit "?sort=time" ++ apos ++ lit ">tottime</a>") = 1 ∧
     countSub (rewriteHeaderLine [] canonicalHeaderLine)
       (lit "<a href=" ++ apos ++ lit "?sort=cumulative" ++ apos ++ lit ">cumtime</a>") = 1 ∧
     countSub (rewriteHeaderLine [] canonicalHeaderLine)
       (lit "<a href=" ++ apos ++ lit "?sort=module" ++ apos ++ lit ">filename</a>") = 1 ∧
     countSub (rewriteHeaderLine [] canonicalHeaderLine)
       (lit "<a href=" ++ apos ++ lit "?sort=nfl" ++ apos ++ lit ">lineno</a>") = 1) :=
  ⟨processHeaderLines_first query pre hd post hpre hh,
   processHeaderLines_no_match query,
   by decide, by decide, by decide, by decide, by decide, by decide⟩

/-- Claim C7, witness: a three-line output whose middle line is the canonical
header is rewritten only on that middle line. -/
theorem c7_witness :
    processHeaderLines [] [lit "Ordered by: internal time\n",
        canonicalHeaderLine, lit "        1    0.0 x.py:1(f)\n"] =
      [lit "Ordered by: internal time\n", rewriteHeaderLine [] canonicalHeaderLine,
        lit "        1    0.0 x.py:1(f)\n"] :=
  (c7_header_linkify [] [lit "Ordered by: internal time\n"]
    [lit "        1    0.0 x.py:1(f)\n"] canonicalHeaderLine
    (by decide) (by decide)).1

/-- Claim C8: read returns the accumulation stream after pass 1 then pass 2
and resets the stream to empty, so a second read with no intervening show
returns the empty string, and a read following further show output depends
only on the output produced after the reset. -/
theorem c8_read_drains (q q2 : List (Str × Str)) (o : CProfileVStats) (r : Str) :
    (o.read q).1 = process_lines q (process_header q o.stream) ∧
    (o.read q).2 = { o with stream := [] } ∧
    (((o.read q).2).read q2).1 = [] ∧
    ((((o.read q).2).show_table r).read q2).1 =
      process_lines q2 (process_header q2 (o.engine.table o.sortArg r)) :=
  ⟨rfl, rfl, rfl, rfl⟩

/-- Claim C9: on a loaded capture, the detail page always carries exactly one
primary table block; with no (or an empty) func_name parameter it carries
zero drill-down panels, and with a nonempty func_name whose caller and
callee printouts are nonempty it carries exactly one callers panel and one
callees panel. -/
theorem c9_drilldown_gating (st : CProfileV) (reg : RegState) (name : Str)
    (obj : CProfileVStats) (query : List (Str × Str))
    (h1 : st.registry = some reg)
    (h2 : dictLookup reg.stats_obj name = some obj) :
    (((dictLookup query FUNC_NAME_KEY).getD [] = []) →
      isPage (CProfileV.route_handler st name query).1 = true ∧
      countStatsPre (pageSegs (CProfileV.route_handler st name query).1) = 1 ∧
      countCallersPanels (pageSegs (CProfileV.route_handler st name query).1) = 0 ∧
      countCalleesPanels (pageSegs (CProfileV.route_handler st name query).1) = 0) ∧
    (((dictLookup query FUNC_NAME_KEY).getD [] ≠ []) →
      obj.engine.callersOf (effSort query) ((dictLookup query FUNC_NAME_KEY).getD []) ≠ [] →
      obj.engine.calleesOf (effSort query) ((dictLookup query FUNC_NAME_KEY).getD []) ≠ [] →
      isPage (CProfileV.route_handler st name query).1 = true ∧
      countStatsPre (pageSegs (CProfileV.route_handler st name query).1) = 1 ∧
      countCallersPanels (pageSegs (CProfileV.route_handler st name query).1) = 1 ∧
      countCalleesPanels (pageSegs (CProfileV.route_handler st name query).1) = 1) := by
  constructor
  · intro hfn
    simp [CProfileV.route_handler, h1, h2, hfn, isPage, pageSegs, renderSegments,
      countStatsPre, countCallersPanels, countCalleesPanels,
      List.countP_cons, List.countP_nil]
  · intro hfn hc he
    simp only [effSort] at hc he
    have hcal := process_lines_ne_nil query (process_header_ne_nil query hc)
    have hcel := process_lines_ne_nil query (process_header_ne_nil query he)
    simp only [CProfileV.route_handler, h1, h2, CProfileVStats.sort,
      CProfileVStats.show_table, CProfileVStats.show_callers,
      CProfileVStats.show_callees, CProfileVStats.read,
      CProfileVStats.reset_stream, List.nil_append, if_neg hfn]
    simp [isPage, pageSegs, renderSegments, hcal, hcel,
      countStatsPre, countCallersPanels, countCalleesPanels,
      List.countP_cons, List.countP_nil]

/-- Claim C9, witness: on a loaded capture with nonempty engine printouts,
the drill-down request renders exactly one callers panel, one callees panel
and one table block. -/
theorem c9_witness :
    isPage (CProfileV.route_handler st9 (lit "a.prof") q9).1 = true ∧
    countStatsPre (pageSegs (CProfileV.route_handler st9 (lit "a.prof") q9).1) = 1 ∧
    countCallersPanels (pageSegs (CProfileV.route_handler st9 (lit "a.prof") q9).1) = 1 ∧
    countCalleesPanels (pageSegs (CProfileV.route_handler st9 (lit "a.prof") q9).1) = 1 :=
  (c9_drilldown_gating st9 ⟨[(lit "a.prof", mkCProfileVStats engine9)], []⟩
    (lit "a.prof") (mkCProfileVStats engine9) q9 rfl rfl).2
    (by decide) (by decide) (by decide)

/-- Claim C10: the link builder inserts keys and values verbatim: the
overridden pair always appears byte-for-byte in the produced link, and on the
concrete ampersand-carrying value the produced query string parses back into
two pairs rather than the original single pair. -/
theorem c10_verbatim_no_roundtrip :
    (∀ (query : List (Str × Str)) (key val : Str),
      ∃ a b : Str, get_href query key val = a ++ (key ++ lit "=" ++ val) ++ b) ∧
    get_href [] (lit "a") (lit "b&c=d") = lit "?a=b&c=d" ∧
    parseQS (lit "a=b&c=d") = [(lit "a", lit "b"), (lit "c", lit "d")] ∧
    parseQS (lit "a=b&c=d") ≠ [(lit "a", lit "b&c=d")] := by
  refine ⟨?_, by decide, by decide, by decide⟩
  intro query key val
  have hmem : pairSerial (key, val) ∈ (dictInsert query key val).map pairSerial :=
    List.mem_map.mpr ⟨(key, val), dictInsert_mem_self query key val, rfl⟩
  obtain ⟨a, b, hab⟩ := ampJoin_mem_decomp hmem
  refine ⟨lit "?" ++ a, b, ?_⟩
  rw [get_href_eq, hab]
  simp [pairSerial, List.append_assoc]
